import Mathlib

/-!
Shallow embedding of the LegalBrief document-to-memory pipeline
(backend/app: services/ingest.py, services/memory.py, services/llm.py,
api/endpoints/ingest.py, api/endpoints/query.py).

External collaborators (pypdf page extraction, the langchain text splitter,
the sentence-transformer embedding model, the Gemini model, json.loads,
the Qdrant client) are modelled as parameters or as explicit outcome values,
exactly where the source calls them.  Machine integers of the source are
Nat/Int; Python exceptions are Except values.  Fresh UUID strings, wall-clock
timestamps (created_at) and embedding vectors are external nondeterministic
values that no claim below depends on; where they are needed they are passed
in as parameters, otherwise they are omitted from the embedded record.
-/

namespace LegalBrief

/-! ## services/ingest.py -/

/-- Embeds `DocumentMetadata` (models/document.py) as constructed by
`IngestService.process_pdf`: `source=file_path`, `filename`, `page_number`,
`dates=[]`, `entities=[]`.  `created_at` (wall clock, default factory) and
`doc_type` (left `None`) are omitted. -/
structure DocumentMetadata where
  source : String
  filename : String
  page_number : Nat
  dates : List String
  entities : List String
deriving DecidableEq, Repr

/-- Embeds `TextChunk` (models/document.py) as built in `process_pdf`.
`chunk_id` (`str(uuid.uuid4())`, a fresh external value) and `embedding`
(output of the external sentence-transformer) are not modelled; no claim
refers to them. -/
structure TextChunk where
  text : String
  metadata : DocumentMetadata
deriving DecidableEq, Repr

/-- Outcome of `page.extract_text()` for one page of the PDF, the external
pypdf call inside the `try` block of `process_pdf`: it either yields a string
(possibly empty; Python treats `""`/`None` as falsy and the page is then not
appended to `pages`) or raises an exception.  A failure of `pypdf.PdfReader`
itself behaves like `err` at position 0. -/
inductive PageRead where
  | ok (text : String)
  | err
deriving DecidableEq, Repr

/-- The extraction loop of `process_pdf` (ingest.py lines 51-61): iterate
`enumerate(reader.pages)` with index `i`, keeping `(i+1, text)` for truthy
text.  The single `try/except` wraps the WHOLE loop, so the first raising
page aborts everything: the function result is `none` (the `except` branch
returns `[]`), discarding pages already extracted. -/
def extract_pages : List PageRead → Nat → Option (List (Nat × String))
  | [], _ => some []
  | PageRead.err :: _, _ => none
  | PageRead.ok t :: rest, i =>
    match extract_pages rest (i + 1) with
    | none => none
    | some ps => some (if t = "" then ps else (i + 1, t) :: ps)

/-- The inner loop of `process_pdf` (lines 69-92): one page's text is split
by the (external, parameterised) text splitter and every resulting chunk
carries that page's number. -/
def pageChunks (split : String → List String) (file_path filename : String)
    (p : Nat × String) : List TextChunk :=
  (split p.2).map fun c => ⟨c, ⟨file_path, filename, p.1, [], []⟩⟩

/-- Embeds `IngestService.process_pdf` (ingest.py lines 36-94).  `split` is
`self.text_splitter.split_text` (external langchain splitter); `reads` is the
per-page behaviour of the external pypdf extraction. -/
def process_pdf (split : String → List String) (file_path filename : String)
    (reads : List PageRead) : List TextChunk :=
  match extract_pages reads 0 with
  | none => []
  | some pages => (pages.map (pageChunks split file_path filename)).flatten

/-- Spec-side enumeration of the pages `process_pdf` would keep when no page
raises: pages (1-indexed from position `i`) whose extracted text is
non-empty.  Used to state what the exception-free run of `extract_pages`
returns. -/
def okPagesFrom (i : Nat) : List PageRead → List (Nat × String)
  | [] => []
  | PageRead.err :: rest => okPagesFrom (i + 1) rest
  | PageRead.ok t :: rest =>
    if t = "" then okPagesFrom (i + 1) rest else (i + 1, t) :: okPagesFrom (i + 1) rest

/-! ## services/memory.py -/

/-- Qdrant distance metric (`models.Distance`). -/
inductive Distance where
  | cosine
  | dot
  | euclid
deriving DecidableEq, Repr

/-- Qdrant `models.VectorParams`: vector size and distance metric of a
collection. -/
structure VectorParams where
  size : Nat
  distance : Distance
deriving DecidableEq, Repr

/-- State of the Qdrant store as seen through the single fixed collection
name `legal_memory`: `none` when the collection is absent, `some cfg` when it
exists with configuration `cfg`. -/
abbrev QdrantState := Option VectorParams

/-- `self.client.get_collection(self.collection_name)`: succeeds iff the
collection exists, raises otherwise. -/
def get_collection : QdrantState → Except String VectorParams
  | some cfg => Except.ok cfg
  | none => Except.error ("collection legal_memory not found")

/-- `self.client.create_collection(...)` as called in `_ensure_collection`:
creates the collection with size 768 and Cosine distance. -/
def create_collection (_st : QdrantState) : QdrantState :=
  some ⟨768, Distance.cosine⟩

/-- Embeds `MemoryService._ensure_collection` (memory.py lines 25-37):
`try: get_collection` and on any exception `create_collection`.  The result
is the store state afterwards; `Except.error` would model an exception
escaping to the caller. -/
def ensure_collection (st : QdrantState) : Except String QdrantState :=
  match get_collection st with
  | Except.ok _ => Except.ok st
  | Except.error _ => Except.ok (create_collection st)

/-! ## services/llm.py -/

/-- A Python value as produced by `json.loads`: the dynamic shapes the parser
can return (floats are not needed by any claim and are folded into `int` for
the purposes of this development — no claim inspects numeric values). -/
inductive PyValue where
  | null
  | bool (b : Bool)
  | int (n : Int)
  | str (s : String)
  | arr (xs : List PyValue)
  | obj (fields : List (String × PyValue))

/-- The dictionary literal `\x7b"dates": [], "entities": []\x7d` returned by
`extract_metadata` on every failure path. -/
def emptyMetadata : PyValue :=
  PyValue.obj [("dates", PyValue.arr []), ("entities", PyValue.arr [])]

/-- Python whitespace as stripped by `str.strip()`. -/
def isPyWhitespace (c : Char) : Bool :=
  c = ' ' || c = '\t' || c = '\n' || c = '\r' || c = '\x0b' || c = '\x0c'

/-- Python `str.strip()`: remove leading and trailing whitespace. -/
def pyStrip (s : String) : String :=
  String.mk (((s.toList.dropWhile isPyWhitespace).reverse.dropWhile isPyWhitespace).reverse)

/-- The clean-up in `extract_metadata` (llm.py line 54):
`response.text.replace("```json", "").replace("```", "").strip()`. -/
def cleanReply (s : String) : String :=
  pyStrip ((s.replace ("```json") ("")).replace ("```") (""))

/-- Embeds `LLMService.extract_metadata` (llm.py lines 28-58).
`model` mirrors `self.model` (`none` when `GEMINI_API_KEY` is unset);
`genReply` is the outcome of the external call
`self.model.generate_content(prompt)` (`Except.error` = the call raised,
`Except.ok t` = a reply whose `.text` is `t`); `loads` is the external
`json.loads` (`Except.error` = it raised `JSONDecodeError`).  Both external
failures land in the single `except` branch of the source, which returns
`emptyMetadata`; on a successful parse the parsed value is returned as-is. -/
def extract_metadata (model : Option Unit) (genReply : Except String String)
    (loads : String → Except String PyValue) : PyValue :=
  match model with
  | none => emptyMetadata
  | some _ =>
    match genReply with
    | Except.error _ => emptyMetadata
    | Except.ok text =>
      match loads (cleanReply text) with
      | Except.error _ => emptyMetadata
      | Except.ok v => v

/-- Field lookup on a parsed JSON object (`d["dates"]`-style access):
`none` when the value is not an object or lacks the key. -/
def lookupField (v : PyValue) (key : String) : Option PyValue :=
  match v with
  | PyValue.obj fields => (fields.find? fun f => f.1 = key).map fun f => f.2
  | _ => none

/-- Whether a Python value is a list of strings. -/
def isStringArray : PyValue → Bool
  | PyValue.arr xs => xs.all fun x => match x with | PyValue.str _ => true | _ => false
  | _ => false

/-- The shape the spec contract promises for `extract_metadata` results:
a mapping with a `dates` field and an `entities` field, each a sequence of
strings. -/
def hasMetadataShape (v : PyValue) : Bool :=
  (match lookupField v ("dates") with
   | some d => isStringArray d
   | none => false) &&
  (match lookupField v ("entities") with
   | some e => isStringArray e
   | none => false)

/-- Embeds `LLMService.synthesize_answer` (llm.py lines 60-95). `gen` is the
outcome of the external streaming call: `Except.ok parts` is the stream of
`chunk.text` fragments concatenated in arrival order into `full_response`;
`Except.error e` is an exception raised by the call or during iteration,
caught by the source's `except` branch which returns the error string. -/
def synthesize_answer (model : Option Unit) (gen : Except String (List String))
    (_query : String) (_context_chunks : List String) : String :=
  match model with
  | none => "LLM service not configured."
  | some _ =>
    match gen with
    | Except.error e => "Error generating answer: " ++ e
    | Except.ok parts => String.join parts

/-! ## api/endpoints/ingest.py -/

/-- `IngestResponse` (models/document.py lines 37-43). -/
structure IngestResponse where
  message : String
  num_chunks : Nat
  document_id : String
deriving DecidableEq, Repr

/-- A FastAPI `HTTPException` as raised by the upload endpoint. -/
structure HTTPException where
  status_code : Nat
  detail : String
deriving DecidableEq, Repr

/-- Observable side effects of `upload_document`, in execution order:
`os.makedirs`, writing the temporary file, and scheduling the background
task `process_upload_background(temp_path, filename)`. -/
inductive UploadEffect where
  | makeDirs (dir : String)
  | saveFile (path : String)
  | scheduleTask (path : String) (filename : String)
deriving DecidableEq, Repr

/-- Python `str.endswith(suffix)`: the suffix check performed by the upload
endpoint (case-sensitive, by code point), written on the character list so
that concrete instances compute. -/
def pyEndsWith (s suf : String) : Bool :=
  suf.data.isSuffixOf s.data

/-- Embeds `upload_document` (api/endpoints/ingest.py lines 49-81).  `uuid`
is the fresh `uuid.uuid4()` string.  The result pairs the ordered list of
side effects actually performed with either the raised `HTTPException` or
the returned `IngestResponse`.  The filename check happens before any
effect, so the reject branch performs none. -/
def upload_document (uuid : String) (filename : String) :
    List UploadEffect × Except HTTPException IngestResponse :=
  if pyEndsWith filename (".pdf") then
    let temp_filename := uuid ++ "_" ++ filename
    let temp_path := "raw_documents/" ++ temp_filename
    ([UploadEffect.makeDirs ("raw_documents"), UploadEffect.saveFile temp_path,
      UploadEffect.scheduleTask temp_path filename],
     Except.ok ⟨"Document uploaded and processing started.", 0, temp_filename⟩)
  else
    ([], Except.error ⟨400, "Only PDF files are supported"⟩)

/-! ## api/endpoints/query.py -/

/-- `QueryRequest` (query.py lines 21-27).  `filters` is accepted but never
read by the endpoint body. -/
structure QueryRequest where
  query : String
  filters : Option PyValue
  synthesize : Bool

/-- One Qdrant `ScoredPoint` as consumed by `query_memory`: the payload
fields it reads plus the similarity score.  Scores are floats in the source;
no claim computes with them, so the score type is a parameter carried
through unchanged. -/
structure SearchHit (α : Type) where
  text : String
  filename : String
  page_number : Nat
  score : α
deriving DecidableEq, Repr

/-- One entry of the `sources` list built in `query_memory`
(query.py lines 57-62). -/
structure SourceRecord (α : Type) where
  text : String
  filename : String
  page_number : Nat
  score : α
deriving DecidableEq, Repr

/-- `QueryResponse` (query.py lines 29-35). -/
structure QueryResponse (α : Type) where
  answer : String
  sources : List (SourceRecord α)
  created_memory_id : Option String
deriving DecidableEq, Repr

/-- The `sources.append(...)` body of `query_memory`. -/
def mkSource {α : Type} (r : SearchHit α) : SourceRecord α :=
  ⟨r.text, r.filename, r.page_number, r.score⟩

/-- The `context_chunks.append(f"Source (...) ...")` body of `query_memory`
(query.py line 63). -/
def mkContextChunk {α : Type} (r : SearchHit α) : String :=
  "Source (" ++ r.filename ++ " p." ++ toString r.page_number ++ "): " ++ r.text

/-- Embeds `query_memory` (query.py lines 37-76).  `results` is what the
external vector search returned; `model`/`gen` parameterise the LLM exactly
as in `synthesize_answer`; `uuid` is the fresh `uuid.uuid4()` string. -/
def query_memory {α : Type} (model : Option Unit) (gen : Except String (List String))
    (uuid : String) (req : QueryRequest) (results : List (SearchHit α)) :
    QueryResponse α :=
  let sources := results.map mkSource
  let context_chunks := results.map mkContextChunk
  if req.synthesize then
    ⟨synthesize_answer model gen req.query context_chunks, sources,
     some ("interaction_" ++ uuid)⟩
  else
    ⟨"", sources, none⟩

/-- One stored point as read by the timeline view: `res.id` and the payload
fields `text`, `filename`, `dates` (points written by `upsert_chunks` always
carry all three). -/
structure StoredPoint where
  id : String
  text : String
  filename : String
  dates : List String
deriving DecidableEq, Repr

/-- One element of the list returned by `get_timeline`
(query.py lines 100-106). -/
structure TimelineEvent where
  date : String
  event : String
  source : String
  chunk_id : String
deriving DecidableEq, Repr

/-- The `timeline_events.append(...)` body: the date string, the first 100
characters of the chunk text with an ellipsis, the source filename and the
chunk id. -/
def mkTimelineEvent (p : StoredPoint) (date : String) : TimelineEvent :=
  ⟨date, p.text.take 100 ++ "...", p.filename, p.id⟩

/-- The un-sorted event list of `get_timeline` (query.py lines 95-106):
for each point, if its `dates` list is non-empty, one event per date. -/
def timelineEvents (points : List StoredPoint) : List TimelineEvent :=
  points.flatMap fun p =>
    if p.dates.isEmpty then [] else p.dates.map (mkTimelineEvent p)

/-- The sort key relation of `timeline_events.sort(key=lambda x: x["date"])`:
plain ascending comparison of the raw date strings (Python compares strings
lexicographically by code point, as does the `String` order used here). -/
def dateLE (a b : TimelineEvent) : Prop :=
  a.date ≤ b.date

instance : DecidableRel dateLE := fun a b =>
  inferInstanceAs (Decidable (a.date ≤ b.date))

instance : IsTotal TimelineEvent dateLE :=
  ⟨fun a b => le_total a.date b.date⟩

instance : IsTrans TimelineEvent dateLE :=
  ⟨fun _ _ _ h h2 => le_trans h h2⟩

/-- Embeds `get_timeline` (query.py lines 79-111): build the event list from
the bounded sample `points` the external `scroll` returned, then sort it
stably by the raw date string (Python `list.sort` is a stable ascending
sort; `insertionSort` models it). -/
def get_timeline (points : List StoredPoint) : List TimelineEvent :=
  List.insertionSort dateLE (timelineEvents points)

/-! ### get_semantic_graph (query.py lines 113-157) -/

/-- One sampled point as read by `get_semantic_graph`: `p.id` and the
payload fields `filename`, `text`. -/
structure GraphPoint where
  id : String
  filename : String
  text : String
deriving DecidableEq, Repr

/-- The attribute dict attached by `G.add_node(pid, label=..., text=...)`. -/
structure NodeAttrs where
  label : String
  text : String
deriving DecidableEq, Repr

/-- The `networkx.Graph` state the endpoint builds: node list in insertion
order (ids unique, re-adding an id updates its attributes) and undirected
edge list in insertion order. -/
structure PyGraph where
  nodes : List (String × NodeAttrs)
  edges : List (String × String)
deriving DecidableEq, Repr

/-- `G.add_node(id, ...)`: update the attributes if the id is present,
append the node otherwise. -/
def addNode (g : PyGraph) (id : String) (attrs : NodeAttrs) : PyGraph :=
  if g.nodes.any fun p => p.1 = id then
    ⟨g.nodes.map fun p => if p.1 = id then (id, attrs) else p, g.edges⟩
  else
    ⟨g.nodes ++ [(id, attrs)], g.edges⟩

/-- `G.add_edge(u, v)` on an undirected graph whose endpoints are already
nodes (the node loop added every point id before the edge loop runs):
a duplicate of an existing edge in either orientation is a no-op. -/
def addEdge (g : PyGraph) (u v : String) : PyGraph :=
  if g.edges.any fun e => (e.1 = u && e.2 = v) || (e.1 = v && e.2 = u) then g
  else ⟨g.nodes, g.edges ++ [(u, v)]⟩

/-- Python exceptions distinguished by the graph endpoint's dict accesses. -/
inductive PyErr where
  | typeError
  | keyError
deriving DecidableEq, Repr

/-- A key used to index `G.nodes`.  `ident` is a plain node id (hashable);
`pair` is the `(id, attr-dict)` tuple yielded by `G.nodes(data=True)` —
Python cannot hash it because it contains a dict. -/
inductive NodeKey where
  | ident (id : String)
  | pair (id : String) (data : NodeAttrs)
deriving DecidableEq, Repr

/-- `G.nodes[key]`: attribute lookup by node id.  Indexing with the
`(id, data)` tuple raises `TypeError: unhashable type` before any lookup
happens, exactly as CPython does when hashing a tuple that contains a
dict. -/
def nodesGet (g : PyGraph) : NodeKey → Except PyErr NodeAttrs
  | NodeKey.ident i =>
    match g.nodes.find? fun p => p.1 = i with
    | some p => Except.ok p.2
    | none => Except.error PyErr.keyError
  | NodeKey.pair _ _ => Except.error PyErr.typeError

/-- One element of the list `get_semantic_graph` returns.  For a node
element the source computes `str(node)` where `node` is the whole
`(id, data)` tuple; the embedding carries that tuple as a `NodeKey` (the
`str` rendering is injective on these values) rather than rendering it. -/
inductive GraphElement where
  | node (id : NodeKey) (label : String)
  | edge (source : String) (target : String)
deriving DecidableEq, Repr

/-- The node-element loop (query.py lines 151-152):
`for node in G.nodes(data=True)` yields `(id, data)` tuples; the element
construction evaluates `str(node)` and then `G.nodes[node]["label"]`, where
the index is the tuple itself — that lookup raises, so the loop aborts on
its first iteration whenever the graph has a node. -/
def buildNodeElements (g : PyGraph) :
    List (String × NodeAttrs) → Except PyErr (List GraphElement)
  | [] => Except.ok []
  | nd :: rest =>
    match nodesGet g (NodeKey.pair nd.1 nd.2) with
    | Except.error e => Except.error e
    | Except.ok attrs =>
      match buildNodeElements g rest with
      | Except.error e => Except.error e
      | Except.ok es =>
        Except.ok (GraphElement.node (NodeKey.pair nd.1 nd.2) attrs.label :: es)

/-- Embeds `get_semantic_graph` (query.py lines 113-157).  `points` is the
sample the external search/scroll produced (the `query` branch only decides
which external call supplies it).  The node loop adds every point; the
double loop adds an edge for every ordered pair of distinct ids with equal
filenames (deduplicated by `add_edge`); then the element loops run, the node
element loop first. -/
def get_semantic_graph (points : List GraphPoint) : Except PyErr (List GraphElement) :=
  let g1 := points.foldl (fun g p => addNode g p.id ⟨p.filename, p.text.take 50⟩) ⟨[], []⟩
  let g2 := points.foldl (fun g p1 =>
    points.foldl (fun g p2 =>
      if p1.id ≠ p2.id ∧ p1.filename = p2.filename then addEdge g p1.id p2.id else g) g) g1
  match buildNodeElements g2 g2.nodes with
  | Except.error e => Except.error e
  | Except.ok ns => Except.ok (ns ++ g2.edges.map fun e => GraphElement.edge e.1 e.2)

/-! ## Theorems -/

/-- C2, counterexample: with an existing collection whose vector size 512 is
incompatible with the 768-dim embedding in use, `_ensure_collection` raises
nothing and silently leaves the mismatched collection in place — the claim
that it "fails loudly" on an incompatible dimension is false. -/
theorem c2_counterexample :
    ensure_collection (some ⟨512, Distance.cosine⟩) =
        Except.ok (some ⟨512, Distance.cosine⟩) ∧
      (512 : Nat) ≠ 768 :=
  ⟨rfl, by decide⟩

/-- C2, amended: `_ensure_collection` is idempotent — when the collection
exists (whatever its configuration) it creates nothing, changes nothing and
never raises; when absent it creates the 768-dim cosine collection.  An
incompatible existing vector dimension is not validated: the call silently
succeeds on it. -/
theorem c2_amended_idempotent_without_validation :
    ∀ st : QdrantState,
      ensure_collection st = Except.ok (some (st.getD ⟨768, Distance.cosine⟩)) := by
  intro st
  cases st <;> rfl

/-- C6: an upload whose filename does not end in `.pdf` is rejected
synchronously with HTTP 400 and performs no side effect — no directory is
created, no temporary file is written, no background task is scheduled. -/
theorem c6_bad_filename_rejected_without_side_effects :
    ∀ (uuid filename : String), pyEndsWith filename (".pdf") = false →
      upload_document uuid filename =
        ([], Except.error ⟨400, "Only PDF files are supported"⟩) := by
  intro u f h
  simp [upload_document, h]

/-- C6, witness at the concrete filename `notes.txt`. -/
theorem c6_witness :
    upload_document ("u1") ("notes.txt") =
      ([], Except.error ⟨400, "Only PDF files are supported"⟩) :=
  c6_bad_filename_rejected_without_side_effects ("u1") ("notes.txt") (by decide)

/-- C10: every accepted upload gets the fixed provisional response —
`num_chunks = 0` and `document_id` equal to the freshly generated temporary
filename (the UUID joined to the original filename by an underscore) — for
every filename and every document content; the background chunk count is
never reported. -/
theorem c10_provisional_response_constant :
    ∀ (uuid filename : String), pyEndsWith filename (".pdf") = true →
      (upload_document uuid filename).2 =
        Except.ok ⟨"Document uploaded and processing started.", 0,
          uuid ++ "_" ++ filename⟩ := by
  intro u f h
  simp [upload_document, h]

/-- C10, witness at the concrete filename `brief.pdf`. -/
theorem c10_witness :
    (upload_document ("u1") ("brief.pdf")).2 =
      Except.ok ⟨"Document uploaded and processing started.", 0,
        "u1" ++ "_" ++ "brief.pdf"⟩ :=
  c10_provisional_response_constant ("u1") ("brief.pdf") (by decide)

/-- C5: whenever the model is unconfigured, or the model call raised, or the
(cleaned) reply fails to parse as JSON, `extract_metadata` returns the
mapping with empty `dates` and `entities` — the exceptions of the external
call and of the parser are both consumed by the source's `except` branch, so
none propagates to the caller (the embedding is a total function whose only
failure outcome is this default value). -/
theorem c5_failure_returns_empty_metadata :
    ∀ (model : Option Unit) (genReply : Except String String)
      (loads : String → Except String PyValue),
      (model = none ∨ (∃ e, genReply = Except.error e) ∨
        (∀ t, genReply = Except.ok t → ∃ e, loads (cleanReply t) = Except.error e)) →
      extract_metadata model genReply loads = emptyMetadata := by
  intro model gen loads h
  cases model with
  | none => rfl
  | some u =>
    cases gen with
    | error e => rfl
    | ok t =>
      rcases h with h | ⟨e, he⟩ | h
      · exact absurd h (by simp)
      · exact absurd he (by simp)
      · obtain ⟨e, he⟩ := h t rfl
        simp [extract_metadata, he]

/-- C5, witness: unconfigured model, concrete reply and parser. -/
theorem c5_witness :
    extract_metadata none (Except.ok ("hi")) (fun _ => Except.ok PyValue.null) =
      emptyMetadata :=
  c5_failure_returns_empty_metadata none (Except.ok ("hi"))
    (fun _ => Except.ok PyValue.null) (Or.inl rfl)

/-- C3, counterexample: `json.loads` applied to the model reply `[1, 2]`
(already clean, no code fences) returns the two-element list `[1, 2]`, and
`extract_metadata` returns that parsed value as-is — a result that is not a
mapping and has neither a `dates` nor an `entities` field. -/
theorem c3_counterexample :
    extract_metadata (some ()) (Except.ok ("[1, 2]"))
        (fun _ => Except.ok (PyValue.arr [PyValue.int 1, PyValue.int 2])) =
      PyValue.arr [PyValue.int 1, PyValue.int 2] ∧
    hasMetadataShape (PyValue.arr [PyValue.int 1, PyValue.int 2]) = false :=
  ⟨rfl, rfl⟩

/-- C3, amended: the `dates`/`entities` string-sequence shape is guaranteed
only on the failure paths — when the model is unconfigured, the call raised,
or the cleaned reply fails to parse, the result is the empty-fields mapping
(which has the contracted shape); when the cleaned reply parses, the parsed
JSON value is returned as-is with no shape validation, so the result can
have any JSON shape. -/
theorem c3_amended_parsed_reply_unvalidated :
    hasMetadataShape emptyMetadata = true ∧
    ∀ (model : Option Unit) (genReply : Except String String)
      (loads : String → Except String PyValue),
      extract_metadata model genReply loads = emptyMetadata ∨
        ∃ t v, model ≠ none ∧ genReply = Except.ok t ∧
          loads (cleanReply t) = Except.ok v ∧
          extract_metadata model genReply loads = v := by
  refine ⟨rfl, ?_⟩
  intro model gen loads
  cases model with
  | none => exact Or.inl rfl
  | some u =>
    cases gen with
    | error e => exact Or.inl rfl
    | ok t =>
      cases hl : loads (cleanReply t) with
      | error e => exact Or.inl (by simp [extract_metadata, hl])
      | ok v =>
        refine Or.inr ⟨t, v, by simp, rfl, hl, ?_⟩
        simp [extract_metadata, hl]

/-- C7: when synthesis is requested and the model fails (unconfigured, or
the call/stream raised), `query_memory` still returns every retrieved
citation, and the answer field is one of the descriptive error strings
produced by `synthesize_answer` instead of a raised exception. -/
theorem c7_synthesis_failure_keeps_citations :
    ∀ {α : Type} (model : Option Unit) (gen : Except String (List String))
      (uuid : String) (req : QueryRequest) (results : List (SearchHit α)),
      req.synthesize = true →
      (model = none ∨ ∃ e, gen = Except.error e) →
      (query_memory model gen uuid req results).sources = results.map mkSource ∧
        ((query_memory model gen uuid req results).answer =
            "LLM service not configured." ∨
          ∃ e, gen = Except.error e ∧
            (query_memory model gen uuid req results).answer =
              "Error generating answer: " ++ e) := by
  intro α model gen uuid req results hsyn hfail
  constructor
  · simp [query_memory, hsyn]
  · rcases hfail with h | ⟨e, he⟩
    · subst h
      left
      simp [query_memory, hsyn, synthesize_answer]
    · subst he
      cases model with
      | none =>
        left
        simp [query_memory, hsyn, synthesize_answer]
      | some u =>
        right
        exact ⟨e, rfl, by simp [query_memory, hsyn, synthesize_answer]⟩

/-- C7, witness: unconfigured model, one concrete retrieved citation. -/
theorem c7_witness :
    (query_memory none (Except.ok []) ("u") ⟨"q", none, true⟩
        ([⟨"t", "f.pdf", 1, (5 : Nat)⟩] : List (SearchHit Nat))).sources =
      ([⟨"t", "f.pdf", 1, (5 : Nat)⟩] : List (SearchHit Nat)).map mkSource ∧
    ((query_memory none (Except.ok []) ("u") ⟨"q", none, true⟩
        ([⟨"t", "f.pdf", 1, (5 : Nat)⟩] : List (SearchHit Nat))).answer =
        "LLM service not configured." ∨
      ∃ e, (Except.ok [] : Except String (List String)) = Except.error e ∧
        (query_memory none (Except.ok []) ("u") ⟨"q", none, true⟩
          ([⟨"t", "f.pdf", 1, (5 : Nat)⟩] : List (SearchHit Nat))).answer =
          "Error generating answer: " ++ e) :=
  c7_synthesis_failure_keeps_citations none (Except.ok []) ("u") ⟨"q", none, true⟩
    ([⟨"t", "f.pdf", 1, (5 : Nat)⟩] : List (SearchHit Nat)) rfl (Or.inl rfl)

/-- The empty-dates guard of the timeline loop is redundant: the event list
is exactly the expansion of every point's `dates` list. -/
theorem timelineEvents_eq_flatMap (points : List StoredPoint) :
    timelineEvents points = points.flatMap fun p => p.dates.map (mkTimelineEvent p) := by
  unfold timelineEvents
  induction points with
  | nil => rfl
  | cons p ps ih =>
    simp only [List.flatMap_cons, ih]
    cases h : p.dates with
    | nil => simp [h]
    | cons d ds => simp [h]

/-- C8: the timeline view emits exactly one event per (chunk, date) pair —
the result is a permutation of the expansion of each sampled chunk's `dates`
list, each event carrying the date string, the 100-character text excerpt,
the source filename and the chunk id — and the returned sequence is sorted
ascending by lexical string comparison of the `date` field. -/
theorem c8_timeline_expansion_sorted_lexically :
    ∀ points : List StoredPoint,
      List.Perm (get_timeline points)
          (points.flatMap fun p => p.dates.map (mkTimelineEvent p)) ∧
        List.Sorted dateLE (get_timeline points) := by
  intro points
  unfold get_timeline
  constructor
  · rw [← timelineEvents_eq_flatMap]
    exact List.perm_insertionSort dateLE (timelineEvents points)
  · exact List.sorted_insertionSort dateLE (timelineEvents points)

/-- A raising page anywhere in the document makes the extraction loop
return `none` (the source's `except` branch). -/
theorem extract_pages_of_err :
    ∀ (reads : List PageRead) (i : Nat), PageRead.err ∈ reads →
      extract_pages reads i = none := by
  intro reads
  induction reads with
  | nil => intro i h; cases h
  | cons r rs ih =>
    intro i h
    cases r with
    | err => rfl
    | ok t =>
      have hm : PageRead.err ∈ rs := by
        rcases List.mem_cons.mp h with h | h
        · cases h
        · exact h
      simp [extract_pages, ih (i + 1) hm]

/-- When no page raises, the extraction loop keeps exactly the non-empty
pages with their 1-based positions. -/
theorem extract_pages_of_no_err :
    ∀ (reads : List PageRead) (i : Nat), PageRead.err ∉ reads →
      extract_pages reads i = some (okPagesFrom i reads) := by
  intro reads
  induction reads with
  | nil => intro i _; rfl
  | cons r rs ih =>
    intro i h
    cases r with
    | err => exact absurd (List.mem_cons_self _ _) h
    | ok t =>
      have hrs : PageRead.err ∉ rs := fun hm => h (List.mem_cons_of_mem _ hm)
      simp [extract_pages, ih (i + 1) hrs, okPagesFrom]

/-- C1, counterexample: in a document whose first page extracts to
`Page one text.` and whose second page raises, the first page is extractable
and would yield a chunk, yet `process_pdf` returns the empty list — the
chunks of the extractable page are not in the result, because the single
`try/except` around the whole page loop aborts the document. -/
theorem c1_counterexample :
    process_pdf (fun t => [t]) ("path") ("doc.pdf")
        [PageRead.ok ("Page one text."), PageRead.err] = [] ∧
      pageChunks (fun t => [t]) ("path") ("doc.pdf") (1, "Page one text.") =
        [⟨"Page one text.", ⟨"path", "doc.pdf", 1, [], []⟩⟩] :=
  ⟨rfl, rfl⟩

/-- C1, amended: if PDF text extraction raises on any page (or on opening
the PDF), `process_pdf` logs it and returns an empty chunk list, discarding
even the successfully extracted pages; only pages whose extraction merely
returns empty/no text are skipped individually — when no page raises, the
result contains exactly the chunks of every page with non-empty text. -/
theorem c1_amended_exception_aborts_whole_document :
    ∀ (split : String → List String) (file_path filename : String)
      (reads : List PageRead),
      (PageRead.err ∈ reads → process_pdf split file_path filename reads = []) ∧
      (PageRead.err ∉ reads →
        process_pdf split file_path filename reads =
          ((okPagesFrom 0 reads).map (pageChunks split file_path filename)).flatten) := by
  intro split fp fn reads
  constructor
  · intro h
    unfold process_pdf
    rw [extract_pages_of_err reads 0 h]
  · intro h
    unfold process_pdf
    rw [extract_pages_of_no_err reads 0 h]

/-- C1, witness: a document whose only page raises yields no chunks. -/
theorem c1_witness :
    process_pdf (fun t => [t]) ("p") ("f.pdf") [PageRead.err] = [] :=
  (c1_amended_exception_aborts_whole_document (fun t => [t]) ("p") ("f.pdf")
    [PageRead.err]).1 (List.mem_cons_self _ _)

/-- The kept pages carry strictly increasing 1-based page numbers, all
above the running index. -/
theorem extract_pages_increasing :
    ∀ (reads : List PageRead) (i : Nat) (ps : List (Nat × String)),
      extract_pages reads i = some ps →
      (∀ p ∈ ps, i < p.1) ∧ List.Pairwise (fun a b : Nat × String => a.1 < b.1) ps := by
  intro reads
  induction reads with
  | nil =>
    intro i ps h
    simp only [extract_pages, Option.some.injEq] at h
    subst h
    exact ⟨fun p hp => absurd hp (List.not_mem_nil p), List.Pairwise.nil⟩
  | cons r rs ih =>
    intro i ps h
    cases r with
    | err => simp [extract_pages] at h
    | ok t =>
      simp only [extract_pages] at h
      cases hrec : extract_pages rs (i + 1) with
      | none => rw [hrec] at h; simp at h
      | some qs =>
        rw [hrec] at h
        simp only [Option.some.injEq] at h
        obtain ⟨hmem, hpair⟩ := ih (i + 1) qs hrec
        subst h
        by_cases ht : t = ""
        · rw [if_pos ht]
          exact ⟨fun p hp => Nat.lt_trans (Nat.lt_succ_self i) (hmem p hp), hpair⟩
        · rw [if_neg ht]
          constructor
          · intro p hp
            rcases List.mem_cons.mp hp with h | h
            · rw [h]; exact Nat.lt_succ_self i
            · exact Nat.lt_trans (Nat.lt_succ_self i) (hmem p h)
          · exact List.Pairwise.cons (fun b hb => hmem b hb) hpair

/-- The page numbers of one page's chunk block are constant. -/
theorem pageChunks_page_numbers (split : String → List String)
    (file_path filename : String) (p : Nat × String) :
    (pageChunks split file_path filename p).map (fun c => c.metadata.page_number) =
      List.replicate (split p.2).length p.1 := by
  unfold pageChunks
  rw [List.map_map]
  exact List.map_const' _ _

/-- C9: every chunk `process_pdf` emits has the `page_number` of the kept
page whose split produced its text (no chunk spans two pages), and across
the emitted chunk sequence the `page_number` values are monotonically
non-decreasing. -/
theorem c9_page_attribution_exact_and_monotone :
    ∀ (split : String → List String) (file_path filename : String)
      (reads : List PageRead),
      (∀ c ∈ process_pdf split file_path filename reads,
        ∃ p ∈ (extract_pages reads 0).getD [],
          c.metadata.page_number = p.1 ∧ c.text ∈ split p.2) ∧
      List.Sorted (fun a b : Nat => a ≤ b)
        ((process_pdf split file_path filename reads).map
          fun c => c.metadata.page_number) := by
  intro split fp fn reads
  unfold process_pdf
  cases h : extract_pages reads 0 with
  | none =>
    exact ⟨fun c hc => absurd hc (List.not_mem_nil c), by simp⟩
  | some pages =>
    obtain ⟨_, hpair⟩ := extract_pages_increasing reads 0 pages h
    constructor
    · intro c hc
      rw [List.mem_flatten] at hc
      obtain ⟨l, hl, hcl⟩ := hc
      rw [List.mem_map] at hl
      obtain ⟨p, hp, rfl⟩ := hl
      unfold pageChunks at hcl
      rw [List.mem_map] at hcl
      obtain ⟨s, hs, rfl⟩ := hcl
      exact ⟨p, hp, rfl, hs⟩
    · rw [List.map_flatten]
      refine List.pairwise_flatten.mpr ⟨?_, ?_⟩
      · intro l hl
        rw [List.mem_map] at hl
        obtain ⟨l0, hl0, rfl⟩ := hl
        rw [List.mem_map] at hl0
        obtain ⟨p, hp, rfl⟩ := hl0
        rw [pageChunks_page_numbers, List.pairwise_replicate]
        exact Or.inr (le_refl p.1)
      · rw [List.pairwise_map, List.pairwise_map]
        refine List.Pairwise.imp ?_ hpair
        intro a b hab x hx y hy
        rw [pageChunks_page_numbers] at hx hy
        rw [List.eq_of_mem_replicate hx, List.eq_of_mem_replicate hy]
        exact Nat.le_of_lt hab

/-- C9, witness: the single chunk of a one-page document is attributed to
page 1 with its own text. -/
theorem c9_witness :
    ∃ p ∈ (extract_pages [PageRead.ok ("ab")] 0).getD [],
      (⟨"ab", ⟨"p", "f.pdf", 1, [], []⟩⟩ : TextChunk).metadata.page_number = p.1 ∧
      (⟨"ab", ⟨"p", "f.pdf", 1, [], []⟩⟩ : TextChunk).text ∈ (fun t => [t]) p.2 :=
  (c9_page_attribution_exact_and_monotone (fun t => [t]) ("p") ("f.pdf")
    [PageRead.ok ("ab")]).1 ⟨"ab", ⟨"p", "f.pdf", 1, [], []⟩⟩ (by decide)

/-- `add_node` leaves the node list non-empty. -/
theorem addNode_nodes_ne_nil (g : PyGraph) (id : String) (attrs : NodeAttrs) :
    (addNode g id attrs).nodes ≠ [] := by
  unfold addNode
  by_cases h : (g.nodes.any fun p => p.1 = id) = true
  · simp only [h, if_true]
    obtain ⟨x, hx, _⟩ := List.any_eq_true.mp h
    intro hemp
    rw [List.map_eq_nil_iff] at hemp
    rw [hemp] at hx
    exact List.not_mem_nil x hx
  · simp [h]

/-- A fold whose step preserves the node list preserves the node list. -/
theorem foldl_preserves_nodes {β : Type} (f : PyGraph → β → PyGraph)
    (hf : ∀ g b, (f g b).nodes = g.nodes) :
    ∀ (l : List β) (g : PyGraph), (l.foldl f g).nodes = g.nodes := by
  intro l
  induction l with
  | nil => intro g; rfl
  | cons b bs ih => intro g; rw [List.foldl_cons, ih, hf]

/-- `add_edge` does not touch the node list. -/
theorem addEdge_nodes (g : PyGraph) (u v : String) :
    (addEdge g u v).nodes = g.nodes := by
  unfold addEdge
  by_cases h : (g.edges.any fun e => (e.1 = u && e.2 = v) || (e.1 = v && e.2 = u)) = true
  · rw [if_pos h]
  · rw [if_neg h]

/-- The node loop keeps the node list non-empty once it is. -/
theorem foldl_addNode_ne_nil :
    ∀ (ps : List GraphPoint) (g : PyGraph), g.nodes ≠ [] →
      ((ps.foldl (fun g p => addNode g p.id ⟨p.filename, p.text.take 50⟩) g).nodes ≠ []) := by
  intro ps
  induction ps with
  | nil => intro g h; exact h
  | cons p ps ih =>
    intro g _
    rw [List.foldl_cons]
    exact ih _ (addNode_nodes_ne_nil _ _ _)

/-- C4 (code bug): on every non-empty sampled point set the semantic-graph
endpoint raises `TypeError` — `for node in G.nodes(data=True)` yields
`(id, data)` tuples, and `G.nodes[node]` then indexes the node dict with a
tuple containing the (unhashable) attribute dict, so the first iteration of
the element loop raises and no node/edge elements are ever returned. -/
theorem c4_nonempty_sample_raises_type_error :
    ∀ (p : GraphPoint) (ps : List GraphPoint),
      get_semantic_graph (p :: ps) = Except.error PyErr.typeError := by
  intro p ps
  simp only [get_semantic_graph]
  have h1 : ((p :: ps).foldl
      (fun g q => addNode g q.id ⟨q.filename, q.text.take 50⟩)
      (⟨[], []⟩ : PyGraph)).nodes ≠ [] := by
    rw [List.foldl_cons]
    exact foldl_addNode_ne_nil ps _ (addNode_nodes_ne_nil _ _ _)
  have h2 : (((p :: ps).foldl (fun g p1 =>
      (p :: ps).foldl (fun g p2 =>
        if p1.id ≠ p2.id ∧ p1.filename = p2.filename then addEdge g p1.id p2.id else g) g)
      ((p :: ps).foldl (fun g q => addNode g q.id ⟨q.filename, q.text.take 50⟩)
        (⟨[], []⟩ : PyGraph))).nodes) ≠ [] := by
    rw [foldl_preserves_nodes]
    · exact h1
    · intro g p1
      apply foldl_preserves_nodes
      intro g2 p2
      by_cases hc : p1.id ≠ p2.id ∧ p1.filename = p2.filename
      · rw [if_pos hc]; exact addEdge_nodes _ _ _
      · rw [if_neg hc]
  obtain ⟨nd, rest, hcons⟩ := List.exists_cons_of_ne_nil h2
  rw [hcons]
  simp [buildNodeElements, nodesGet]

end LegalBrief
